import Mathlib

/-!
# Tutorial and post GraphQL services

A shallow embedding of the resolver functions of `main.go` (the tutorial
service) and of `test/test.go` (the post service), with the properties of
the record store proved about them.

Conventions of the embedding.

* The package-level slice `tutorials` is the state: every resolver takes the
  store and returns the store it leaves behind.
* A Go `interface{}` is a `Value`; the nil interface is `Value.nil`.
* A Go `error` is an `Option GoError`; the nil error is `none`.
* A panic (a failed single-result type assertion) is `Except.error`.
* A call of `log.Fatal` ends the process: the function returns `none`.
* Go `int` is `Int`: identifiers are only stored and compared, never
  computed with, so the machine width plays no part.
* A nil slice and an empty slice are both the empty list.
-/

namespace GraphqlMongo

/-! ## Data model (`main.go`, lines 97-111) -/

/-- The Go struct `Comment`. -/
structure Comment where
  Body : String
deriving DecidableEq, Repr

/-- The Go struct `Author`. -/
structure Author where
  Name : String
  Tutorials : List Int
deriving DecidableEq, Repr

/-- The Go struct `Tutorial`. -/
structure Tutorial where
  ID : Int
  Title : String
  Author : GraphqlMongo.Author
  Comments : List Comment
deriving DecidableEq, Repr

/-- The dynamic values an `interface{}` holds in this program: the nil
interface, the argument scalars, and what the resolvers return. -/
inductive Value where
  | nil
  | int (n : Int)
  | str (s : String)
  | bool (b : Bool)
  | tutorial (t : Tutorial)
  | tutorials (ts : List Tutorial)
deriving DecidableEq, Repr

/-- A Go error value, by its message. -/
abbrev GoError := String

/-- The part of `graphql.ResolveParams` the resolvers read: the argument map
`Args map[string]interface{}`. A key that is absent maps to `none`. -/
structure ResolveParams where
  Args : String → Option Value

/-- What a resolver returns: `(interface{}, error)`. -/
abbrev Resolved := Value × Option GoError

/-- The index expression `m[key]` on a `map[string]interface{}`: the entry,
or the nil interface when the key is absent. -/
def mapIndex (m : String → Option Value) (key : String) : Value :=
  match m key with
  | some v => v
  | none => Value.nil

/-- The two-result type assertion `v.(int)`: the integer and `true`, or the
zero value and `false`. -/
def assertInt : Value → Int × Bool
  | Value.int n => (n, true)
  | _ => (0, false)

/-- The single-result type assertion `v.(string)`, which panics on any
other dynamic type. -/
def assertString : Value → Except String String
  | Value.str s => Except.ok s
  | _ => Except.error "interface conversion: value is not a string"

/-! ## The seeded store (`main.go`, lines 114-145) -/

/-- Outcome of the two database operations `populate` performs. -/
structure MongoEnv where
  dialOk : Bool
  insertOk : Bool

/-- The function `populate`: builds the two records, appends them to a fresh
slice, inserts them in the collection and returns the slice. `GetMongo`
calls `log.Fatal` when the dial fails, and `populate` does when the insert
fails. -/
def populate (env : MongoEnv) : Option (List Tutorial) :=
  let author : Author := { Name := "Elliot Forbes", Tutorials := [1, 2] }
  let tutorial : Tutorial :=
    { ID := 1, Title := "Go GraphQL Tutorial", Author := author,
      Comments := [{ Body := "First Comment" }] }
  let tutorial2 : Tutorial :=
    { ID := 2, Title := "Go GraphQL Tutorial - Part 2", Author := author,
      Comments := [{ Body := "Second Comment" }] }
  let tutorials : List Tutorial := []
  let tutorials := tutorials ++ [tutorial]
  let tutorials := tutorials ++ [tutorial2]
  if env.dialOk then
    if env.insertOk then some tutorials else none
  else none

/-! ## Resolvers (`main.go`, lines 203-209, 225-236, 241-253) -/

/-- The resolver of the mutation field `create`. -/
def createResolve (params : ResolveParams) (tutorials : List Tutorial) :
    Except String (Resolved × List Tutorial) :=
  match assertString (mapIndex params.Args "title") with
  | Except.error e => Except.error e
  | Except.ok title =>
    let tutorial : Tutorial :=
      { ID := 0, Title := title, Author := { Name := "", Tutorials := [] }, Comments := [] }
    let tutorials := tutorials ++ [tutorial]
    Except.ok ((Value.tutorial tutorial, none), tutorials)

/-- The `for ... range tutorials` loop of the `tutorial` resolver: the value
of its `return` when an iteration reaches it, `none` when the loop ends. -/
def tutorialLoop (id : Int) : List Tutorial → Option Resolved
  | [] => none
  | tutorial :: rest =>
    if tutorial.ID = id then some (Value.tutorial tutorial, none)
    else tutorialLoop id rest

/-- The resolver of the query field `tutorial`. -/
def tutorialResolve (p : ResolveParams) (tutorials : List Tutorial) :
    Resolved × List Tutorial :=
  let (id, ok) := assertInt (mapIndex p.Args "id")
  if ok then
    match tutorialLoop id tutorials with
    | some r => (r, tutorials)
    | none => ((Value.nil, none), tutorials)
  else ((Value.nil, none), tutorials)

/-- The resolver of the query field `list`. -/
def listResolve (_params : ResolveParams) (tutorials : List Tutorial) :
    Resolved × List Tutorial :=
  ((Value.tutorials tutorials, none), tutorials)

/-! ## Sequences of resolver calls -/

/-- One resolver call with its parameters. -/
inductive Call where
  | create (params : ResolveParams)
  | tutorial (p : ResolveParams)
  | list (params : ResolveParams)

/-- The store after one call. A `create` that panics does so before its
`append`, so it leaves the store as it was. -/
def step (tutorials : List Tutorial) : Call → List Tutorial
  | Call.create params =>
    match createResolve params tutorials with
    | Except.ok (_, tutorials1) => tutorials1
    | Except.error _ => tutorials
  | Call.tutorial p => (tutorialResolve p tutorials).2
  | Call.list params => (listResolve params tutorials).2

/-- The store after a sequence of calls, in order. -/
def run (calls : List Call) (tutorials : List Tutorial) : List Tutorial :=
  calls.foldl step tutorials

/-- Whether a call is a `create` that returns (its title is a string). -/
def createsRecord : Call → Bool
  | Call.create params =>
    match assertString (mapIndex params.Args "title") with
    | Except.ok _ => true
    | Except.error _ => false
  | _ => false

/-- Number of calls of a sequence that append a record. -/
def createdCount (calls : List Call) : Nat :=
  (calls.filter createsRecord).length

/-- No two records at different positions have the same ID. -/
def uniqueIDs (tutorials : List Tutorial) : Prop :=
  tutorials.Pairwise (fun a b => a.ID ≠ b.ID)

instance (tutorials : List Tutorial) : Decidable (uniqueIDs tutorials) := by
  unfold uniqueIDs; infer_instance

/-- Parameters whose argument map holds one entry. -/
def argsOf (key : String) (v : Value) : ResolveParams :=
  { Args := fun k => if k = key then some v else none }

/-- Parameters with an empty argument map. -/
def noArgs : ResolveParams :=
  { Args := fun _ => none }

/-! ## The post service (`test/test.go`, lines 113-167) -/

/-- The Go struct `post`; `graphql.ID` is a string type. -/
structure post where
  ID : String
  Slug : String
  Title : String
deriving DecidableEq, Repr

/-- The Go struct `postResolver`; the pointer field `s` is `none` when nil. -/
structure postResolver where
  s : Option post
deriving DecidableEq, Repr

/-- What the database does for the post service: whether the dial of
`GetMongo` succeeds, and for each slug the outcome of the query
`Find(slug).Select().One`, a decoded document or an error. -/
structure PostEnv where
  dialOk : Bool
  findOne : String → Except GoError post

/-- The library call `One(&oneResult)` seen from `Post`: on an error it
returns before writing through its argument, on success it decodes the
document into the struct the pointer designates (allocating one if the
pointer is nil). -/
def One (outcome : Except GoError post) (result : Option post) :
    Option post × Option GoError :=
  match outcome with
  | Except.ok doc => (some doc, none)
  | Except.error e => (result, some e)

/-- The method `Resolver.Post`. The outer `none` is the process ending in
`log.Fatal` inside `GetMongo`; `some none` is the nil resolver of the final
`return nil`. -/
def Resolver.Post (env : PostEnv) (Slug : String) : Option (Option postResolver) :=
  let oneResult : Option post := some { ID := "", Slug := "", Title := "" }
  if env.dialOk then
    let (oneResult, _err) := One (env.findOne Slug) oneResult
    match oneResult with
    | some _ => some (some { s := oneResult })
    | none => some none
  else none

/-- The method `postResolver.ID`; dereferencing a nil `s` panics. -/
def postResolver.ID (r : postResolver) : Except String String :=
  match r.s with
  | some p => Except.ok p.ID
  | none => Except.error "nil pointer dereference"

/-- The method `postResolver.Slug`. -/
def postResolver.Slug (r : postResolver) : Except String String :=
  match r.s with
  | some p => Except.ok p.Slug
  | none => Except.error "nil pointer dereference"

/-- The method `postResolver.Title`. -/
def postResolver.Title (r : postResolver) : Except String String :=
  match r.s with
  | some p => Except.ok p.Title
  | none => Except.error "nil pointer dereference"

/-! ## Helper lemmas -/

theorem mapIndex_of_some {m : String → Option Value} {key : String} {v : Value}
    (h : m key = some v) : mapIndex m key = v := by
  simp [mapIndex, h]

theorem createResolve_of_title (params : ResolveParams) (tutorials : List Tutorial)
    (t : String) (h : params.Args "title" = some (Value.str t)) :
    createResolve params tutorials =
      Except.ok ((Value.tutorial ⟨0, t, ⟨"", []⟩, []⟩, none),
        tutorials ++ [⟨0, t, ⟨"", []⟩, []⟩]) := by
  simp [createResolve, mapIndex_of_some h, assertString]

theorem tutorialLoop_none (id : Int) (tutorials : List Tutorial)
    (h : ∀ t ∈ tutorials, t.ID ≠ id) : tutorialLoop id tutorials = none := by
  induction tutorials with
  | nil => rfl
  | cons a rest ih =>
    have ha : a.ID ≠ id := h a (List.mem_cons_self a rest)
    have hrest : ∀ t ∈ rest, t.ID ≠ id := fun t ht => h t (List.mem_cons_of_mem a ht)
    simp [tutorialLoop, ha, ih hrest]

theorem tutorialLoop_some (id : Int) (tutorials : List Tutorial)
    (h : ∃ t ∈ tutorials, t.ID = id) :
    ∃ before r after, tutorials = before ++ r :: after ∧ (∀ x ∈ before, x.ID ≠ id) ∧
      r.ID = id ∧ tutorialLoop id tutorials = some (Value.tutorial r, none) := by
  induction tutorials with
  | nil => obtain ⟨t, ht, _⟩ := h; cases ht
  | cons a rest ih =>
    by_cases ha : a.ID = id
    · exact ⟨[], a, rest, rfl, by simp, ha, by simp [tutorialLoop, ha]⟩
    · have hrest : ∃ t ∈ rest, t.ID = id := by
        obtain ⟨t, ht, hid⟩ := h
        rcases List.mem_cons.mp ht with rfl | ht
        · exact absurd hid ha
        · exact ⟨t, ht, hid⟩
      obtain ⟨before, r, after, hsplit, hbefore, hr, hloop⟩ := ih hrest
      refine ⟨a :: before, r, after, by simp [hsplit], ?_, hr, by simp [tutorialLoop, ha, hloop]⟩
      intro x hx
      rcases List.mem_cons.mp hx with rfl | hx
      · exact ha
      · exact hbefore x hx

theorem tutorialResolve_store (p : ResolveParams) (tutorials : List Tutorial) :
    (tutorialResolve p tutorials).2 = tutorials := by
  unfold tutorialResolve
  rcases assertInt (mapIndex p.Args "id") with ⟨id, ok⟩
  cases ok
  · rfl
  · cases h : tutorialLoop id tutorials <;> simp [h]

theorem step_eq_append (tutorials : List Tutorial) (c : Call) :
    ∃ added, step tutorials c = tutorials ++ added ∧
      added.length = (if createsRecord c = true then 1 else 0) ∧ ∀ r ∈ added, r.ID = 0 := by
  cases c with
  | create params =>
    cases h : assertString (mapIndex params.Args "title") with
    | error e => exact ⟨[], by simp [step, createResolve, h], by simp [createsRecord, h], by simp⟩
    | ok title =>
      exact ⟨[⟨0, title, ⟨"", []⟩, []⟩], by simp [step, createResolve, h],
        by simp [createsRecord, h], by simp⟩
  | tutorial p => exact ⟨[], by simp [step, tutorialResolve_store], by simp [createsRecord], by simp⟩
  | list params => exact ⟨[], by simp [step, listResolve], by simp [createsRecord], by simp⟩

theorem run_eq_append (calls : List Call) (tutorials : List Tutorial) :
    ∃ added, run calls tutorials = tutorials ++ added ∧
      added.length = createdCount calls ∧ ∀ r ∈ added, r.ID = 0 := by
  induction calls generalizing tutorials with
  | nil => exact ⟨[], by simp [run], by simp [createdCount], by simp⟩
  | cons c rest ih =>
    obtain ⟨a1, h1, hlen1, hid1⟩ := step_eq_append tutorials c
    obtain ⟨a2, h2, hlen2, hid2⟩ := ih (step tutorials c)
    refine ⟨a1 ++ a2, ?_, ?_, ?_⟩
    · have : run (c :: rest) tutorials = run rest (step tutorials c) := rfl
      rw [this, h2, h1, List.append_assoc]
    · simp only [List.length_append, hlen1, hlen2, createdCount, List.filter_cons]
      cases createsRecord c <;> simp [Nat.add_comm]
    · intro r hr
      rcases List.mem_append.mp hr with hr | hr
      · exact hid1 r hr
      · exact hid2 r hr

theorem pairwise_ne_of_all_zero (added : List Tutorial) (h : ∀ r ∈ added, r.ID = 0) :
    added.Pairwise (fun a b => a.ID ≠ b.ID) ↔ added.length ≤ 1 := by
  match added, h with
  | [], _ => simp
  | [a], _ => simp
  | a :: b :: rest, h =>
    have ha : a.ID = 0 := h a (by simp)
    have hb : b.ID = 0 := h b (by simp)
    simp [List.pairwise_cons, ha, hb]

/-! ## Create followed by list -/

/-- C1, as stated, fails: on the store reached from the seed by one
`create` with title "a", a second `create` with title "a" returns a record
that the following `list` result holds twice. -/
theorem create_then_list_twice :
    createResolve (argsOf "title" (Value.str "a"))
        [⟨1, "Go GraphQL Tutorial", ⟨"Elliot Forbes", [1, 2]⟩, [⟨"First Comment"⟩]⟩,
         ⟨2, "Go GraphQL Tutorial - Part 2", ⟨"Elliot Forbes", [1, 2]⟩, [⟨"Second Comment"⟩]⟩,
         ⟨0, "a", ⟨"", []⟩, []⟩]
      = Except.ok ((Value.tutorial ⟨0, "a", ⟨"", []⟩, []⟩, none),
        [⟨1, "Go GraphQL Tutorial", ⟨"Elliot Forbes", [1, 2]⟩, [⟨"First Comment"⟩]⟩,
         ⟨2, "Go GraphQL Tutorial - Part 2", ⟨"Elliot Forbes", [1, 2]⟩, [⟨"Second Comment"⟩]⟩,
         ⟨0, "a", ⟨"", []⟩, []⟩, ⟨0, "a", ⟨"", []⟩, []⟩]) ∧
    (listResolve noArgs
        [⟨1, "Go GraphQL Tutorial", ⟨"Elliot Forbes", [1, 2]⟩, [⟨"First Comment"⟩]⟩,
         ⟨2, "Go GraphQL Tutorial - Part 2", ⟨"Elliot Forbes", [1, 2]⟩, [⟨"Second Comment"⟩]⟩,
         ⟨0, "a", ⟨"", []⟩, []⟩, ⟨0, "a", ⟨"", []⟩, []⟩]).1
      = (Value.tutorials
        [⟨1, "Go GraphQL Tutorial", ⟨"Elliot Forbes", [1, 2]⟩, [⟨"First Comment"⟩]⟩,
         ⟨2, "Go GraphQL Tutorial - Part 2", ⟨"Elliot Forbes", [1, 2]⟩, [⟨"Second Comment"⟩]⟩,
         ⟨0, "a", ⟨"", []⟩, []⟩, ⟨0, "a", ⟨"", []⟩, []⟩], none) ∧
    List.count (⟨0, "a", ⟨"", []⟩, []⟩ : Tutorial)
        [⟨1, "Go GraphQL Tutorial", ⟨"Elliot Forbes", [1, 2]⟩, [⟨"First Comment"⟩]⟩,
         ⟨2, "Go GraphQL Tutorial - Part 2", ⟨"Elliot Forbes", [1, 2]⟩, [⟨"Second Comment"⟩]⟩,
         ⟨0, "a", ⟨"", []⟩, []⟩, ⟨0, "a", ⟨"", []⟩, []⟩] = 2 := by
  refine ⟨?_, rfl, ?_⟩
  · exact createResolve_of_title _ _ "a" (by simp [argsOf])
  · decide

/-- C1, amended: for every store and title, `create` returns a record `r`,
and the `list` call that follows returns the old store followed by `r`: its
last element is `r`, and `r` occurs in it once more than in the store before
the call, so exactly once when the store held no record equal to `r`. -/
theorem create_then_list (params params1 : ResolveParams) (tutorials : List Tutorial)
    (t : String) (h : params.Args "title" = some (Value.str t)) :
    ∃ r tutorials1,
      createResolve params tutorials = Except.ok ((Value.tutorial r, none), tutorials1) ∧
      (listResolve params1 tutorials1).1 = (Value.tutorials (tutorials ++ [r]), none) ∧
      (tutorials ++ [r]).getLast? = some r ∧
      (tutorials ++ [r]).count r = tutorials.count r + 1 ∧
      (r ∉ tutorials → (tutorials ++ [r]).count r = 1) := by
  refine ⟨(⟨0, t, ⟨"", []⟩, []⟩ : Tutorial), tutorials ++ [(⟨0, t, ⟨"", []⟩, []⟩ : Tutorial)],
    createResolve_of_title params tutorials t h, ?_, by simp, by simp, ?_⟩
  · rfl
  · intro hnot
    simp [List.count_eq_zero_of_not_mem hnot]

/-- Witness of `create_then_list` on the empty store. -/
theorem create_then_list_witness :
    (argsOf "title" (Value.str "a")).Args "title" = some (Value.str "a") ∧
    ∃ r tutorials1,
      createResolve (argsOf "title" (Value.str "a")) [] =
        Except.ok ((Value.tutorial r, none), tutorials1) ∧
      (listResolve noArgs tutorials1).1 = (Value.tutorials ([] ++ [r]), none) ∧
      ([] ++ [r]).getLast? = some r ∧
      ([] ++ [r]).count r = ([] : List Tutorial).count r + 1 ∧
      (r ∉ ([] : List Tutorial) → ([] ++ [r]).count r = 1) :=
  ⟨by simp [argsOf],
    create_then_list (argsOf "title" (Value.str "a")) noArgs [] "a" (by simp [argsOf])⟩

/-! ## Lookup by identifier -/

/-- C2: when no record of the store has the ID `id`, the `tutorial` resolver
called with the argument `id` returns the nil value and the nil error. -/
theorem tutorial_absent (p : ResolveParams) (tutorials : List Tutorial) (id : Int)
    (hid : p.Args "id" = some (Value.int id)) (habs : ∀ t ∈ tutorials, t.ID ≠ id) :
    (tutorialResolve p tutorials).1 = (Value.nil, none) := by
  simp [tutorialResolve, mapIndex_of_some hid, assertInt, tutorialLoop_none id tutorials habs]

/-- Witness of `tutorial_absent`: the id 3 on a store holding the ids 1 and 0. -/
theorem tutorial_absent_witness :
    (argsOf "id" (Value.int 3)).Args "id" = some (Value.int 3) ∧
    (∀ t ∈ ([⟨1, "x", ⟨"n", [1]⟩, []⟩, ⟨0, "y", ⟨"", []⟩, []⟩] : List Tutorial), t.ID ≠ 3) ∧
    (tutorialResolve (argsOf "id" (Value.int 3))
      [⟨1, "x", ⟨"n", [1]⟩, []⟩, ⟨0, "y", ⟨"", []⟩, []⟩]).1 = (Value.nil, none) :=
  ⟨by simp [argsOf], by simp,
    tutorial_absent (argsOf "id" (Value.int 3)) _ 3 (by simp [argsOf]) (by simp)⟩

/-- C3: when some record of the store has the ID `id`, the `tutorial`
resolver called with the argument `id` returns, with the nil error, the
first record in store order whose ID is `id`: the store splits as
`before ++ r :: after` with no record of `before` having that ID. -/
theorem tutorial_first_match (p : ResolveParams) (tutorials : List Tutorial) (id : Int)
    (hid : p.Args "id" = some (Value.int id)) (hmem : ∃ t ∈ tutorials, t.ID = id) :
    ∃ before r after, tutorials = before ++ r :: after ∧ (∀ x ∈ before, x.ID ≠ id) ∧
      r.ID = id ∧ (tutorialResolve p tutorials).1 = (Value.tutorial r, none) := by
  obtain ⟨before, r, after, hsplit, hbefore, hr, hloop⟩ := tutorialLoop_some id tutorials hmem
  exact ⟨before, r, after, hsplit, hbefore, hr,
    by simp [tutorialResolve, mapIndex_of_some hid, assertInt, hloop]⟩

/-- Witness of `tutorial_first_match`: two records share the id 0. -/
theorem tutorial_first_match_witness :
    (argsOf "id" (Value.int 0)).Args "id" = some (Value.int 0) ∧
    (∃ t ∈ ([⟨1, "x", ⟨"n", [1]⟩, []⟩, ⟨0, "y", ⟨"", []⟩, []⟩, ⟨0, "z", ⟨"", []⟩, []⟩] :
      List Tutorial), t.ID = 0) ∧
    ∃ before r after,
      ([⟨1, "x", ⟨"n", [1]⟩, []⟩, ⟨0, "y", ⟨"", []⟩, []⟩, ⟨0, "z", ⟨"", []⟩, []⟩] :
        List Tutorial) = before ++ r :: after ∧
      (∀ x ∈ before, x.ID ≠ 0) ∧ r.ID = 0 ∧
      (tutorialResolve (argsOf "id" (Value.int 0))
        [⟨1, "x", ⟨"n", [1]⟩, []⟩, ⟨0, "y", ⟨"", []⟩, []⟩, ⟨0, "z", ⟨"", []⟩, []⟩]).1 =
          (Value.tutorial r, none) :=
  ⟨by simp [argsOf], ⟨⟨0, "y", ⟨"", []⟩, []⟩, by simp, rfl⟩,
    tutorial_first_match (argsOf "id" (Value.int 0)) _ 0 (by simp [argsOf])
      ⟨⟨0, "y", ⟨"", []⟩, []⟩, by simp, rfl⟩⟩

/-! ## The record a create builds -/

/-- C4: for every store and title `t`, `create` returns with the nil error a
record with title `t`, ID 0, the empty author and no comments, and the store
it leaves is the old store followed by that same record. -/
theorem create_zero_record (params : ResolveParams) (tutorials : List Tutorial)
    (t : String) (h : params.Args "title" = some (Value.str t)) :
    ∃ r, createResolve params tutorials =
        Except.ok ((Value.tutorial r, none), tutorials ++ [r]) ∧
      r.Title = t ∧ r.ID = 0 ∧ r.Author = { Name := "", Tutorials := [] } ∧
      r.Author.Name = "" ∧ r.Author.Tutorials = [] ∧ r.Comments = [] :=
  ⟨⟨0, t, ⟨"", []⟩, []⟩, createResolve_of_title params tutorials t h,
    rfl, rfl, rfl, rfl, rfl, rfl⟩

/-- Witness of `create_zero_record` on a one-record store. -/
theorem create_zero_record_witness :
    (argsOf "title" (Value.str "Hello World")).Args "title" = some (Value.str "Hello World") ∧
    ∃ r, createResolve (argsOf "title" (Value.str "Hello World")) [⟨1, "x", ⟨"n", [1]⟩, []⟩] =
        Except.ok ((Value.tutorial r, none), [⟨1, "x", ⟨"n", [1]⟩, []⟩] ++ [r]) ∧
      r.Title = "Hello World" ∧ r.ID = 0 ∧ r.Author = { Name := "", Tutorials := [] } ∧
      r.Author.Name = "" ∧ r.Author.Tutorials = [] ∧ r.Comments = [] :=
  ⟨by simp [argsOf],
    create_zero_record (argsOf "title" (Value.str "Hello World")) _ "Hello World"
      (by simp [argsOf])⟩

/-! ## Identifiers in reachable stores -/

/-- C5, as stated, fails: two `create` calls on the seeded store leave two
records, at positions 2 and 3, that both have the ID 0. -/
theorem seeded_creates_share_id :
    populate ⟨true, true⟩ = some
        [⟨1, "Go GraphQL Tutorial", ⟨"Elliot Forbes", [1, 2]⟩, [⟨"First Comment"⟩]⟩,
         ⟨2, "Go GraphQL Tutorial - Part 2", ⟨"Elliot Forbes", [1, 2]⟩, [⟨"Second Comment"⟩]⟩] ∧
    run [Call.create (argsOf "title" (Value.str "a")),
         Call.create (argsOf "title" (Value.str "b"))]
        [⟨1, "Go GraphQL Tutorial", ⟨"Elliot Forbes", [1, 2]⟩, [⟨"First Comment"⟩]⟩,
         ⟨2, "Go GraphQL Tutorial - Part 2", ⟨"Elliot Forbes", [1, 2]⟩, [⟨"Second Comment"⟩]⟩]
      = [⟨1, "Go GraphQL Tutorial", ⟨"Elliot Forbes", [1, 2]⟩, [⟨"First Comment"⟩]⟩,
         ⟨2, "Go GraphQL Tutorial - Part 2", ⟨"Elliot Forbes", [1, 2]⟩, [⟨"Second Comment"⟩]⟩,
         ⟨0, "a", ⟨"", []⟩, []⟩, ⟨0, "b", ⟨"", []⟩, []⟩] ∧
    ¬ uniqueIDs
        [⟨1, "Go GraphQL Tutorial", ⟨"Elliot Forbes", [1, 2]⟩, [⟨"First Comment"⟩]⟩,
         ⟨2, "Go GraphQL Tutorial - Part 2", ⟨"Elliot Forbes", [1, 2]⟩, [⟨"Second Comment"⟩]⟩,
         ⟨0, "a", ⟨"", []⟩, []⟩, ⟨0, "b", ⟨"", []⟩, []⟩] := by
  refine ⟨rfl, ?_, ?_⟩
  · simp [run, step, createResolve_of_title, argsOf]
  · simp [uniqueIDs]

/-- C5, amended: every store reached from the seeded store by a sequence of
`create`, `tutorial` and `list` calls is the seeded store followed by one
record with ID 0 for each `create` that returned; so no two records at
different positions have the same ID exactly when at most one `create` has
returned. -/
theorem reachable_ids (env : MongoEnv) (seeded : List Tutorial) (calls : List Call)
    (hseed : populate env = some seeded) :
    (run calls seeded).take 2 = seeded ∧
    (run calls seeded).length = 2 + createdCount calls ∧
    (∀ r ∈ (run calls seeded).drop 2, r.ID = 0) ∧
    (uniqueIDs (run calls seeded) ↔ createdCount calls ≤ 1) := by
  have hs : seeded =
      [⟨1, "Go GraphQL Tutorial", ⟨"Elliot Forbes", [1, 2]⟩, [⟨"First Comment"⟩]⟩,
       ⟨2, "Go GraphQL Tutorial - Part 2", ⟨"Elliot Forbes", [1, 2]⟩, [⟨"Second Comment"⟩]⟩] := by
    rcases env with ⟨d, i⟩
    cases d <;> cases i <;> simp [populate] at hseed
    exact hseed.symm
  obtain ⟨added, hrun, hlen, hzero⟩ := run_eq_append calls seeded
  rw [hrun]
  subst hs
  refine ⟨by simp, by simp [hlen]; omega, by simpa using hzero, ?_⟩
  rw [← hlen, ← pairwise_ne_of_all_zero added hzero]
  unfold uniqueIDs
  simp only [List.cons_append, List.nil_append, List.pairwise_cons]
  constructor
  · intro h
    exact h.2.2
  · intro h
    refine ⟨?_, ?_, h⟩
    · intro b hb
      rcases List.mem_cons.mp hb with rfl | hb
      · decide
      · rw [hzero b hb]; decide
    · intro b hb
      rw [hzero b hb]; decide

/-- Witness of `reachable_ids`: the seeded store after one `create`, one
`tutorial` and one `list` call. -/
theorem reachable_ids_witness :
    populate ⟨true, true⟩ = some
        [⟨1, "Go GraphQL Tutorial", ⟨"Elliot Forbes", [1, 2]⟩, [⟨"First Comment"⟩]⟩,
         ⟨2, "Go GraphQL Tutorial - Part 2", ⟨"Elliot Forbes", [1, 2]⟩, [⟨"Second Comment"⟩]⟩] ∧
    uniqueIDs (run [Call.create (argsOf "title" (Value.str "a")),
        Call.tutorial (argsOf "id" (Value.int 1)), Call.list noArgs]
        [⟨1, "Go GraphQL Tutorial", ⟨"Elliot Forbes", [1, 2]⟩, [⟨"First Comment"⟩]⟩,
         ⟨2, "Go GraphQL Tutorial - Part 2", ⟨"Elliot Forbes", [1, 2]⟩,
           [⟨"Second Comment"⟩]⟩]) :=
  ⟨rfl, (reachable_ids ⟨true, true⟩ _
    [Call.create (argsOf "title" (Value.str "a")),
      Call.tutorial (argsOf "id" (Value.int 1)), Call.list noArgs] rfl).2.2.2.mpr
    (by simp [createdCount, createsRecord, argsOf, mapIndex, assertString])⟩

/-! ## The store is append-only -/

/-- C6: every resolver call leaves a store of which the old store is a
prefix, record for record; `create` with a title leaves the old store
followed by exactly one record; `tutorial` and `list`, with any arguments,
leave the store as it was. -/
theorem store_append_only (tutorials : List Tutorial) :
    (∀ c : Call, tutorials <+: step tutorials c ∧
      ∀ i (hi : i < tutorials.length), (step tutorials c)[i]? = some tutorials[i]) ∧
    (∀ (params : ResolveParams) (t : String), params.Args "title" = some (Value.str t) →
      ∃ res r, createResolve params tutorials = Except.ok (res, tutorials ++ [r]) ∧
        (tutorials ++ [r]).length = tutorials.length + 1 ∧
        step tutorials (Call.create params) = tutorials ++ [r]) ∧
    (∀ p : ResolveParams, (tutorialResolve p tutorials).2 = tutorials) ∧
    (∀ params : ResolveParams, (listResolve params tutorials).2 = tutorials) := by
  refine ⟨?_, ?_, fun p => tutorialResolve_store p tutorials, fun _ => rfl⟩
  · intro c
    obtain ⟨added, hstep, _, _⟩ := step_eq_append tutorials c
    rw [hstep]
    refine ⟨List.prefix_append tutorials added, ?_⟩
    intro i hi
    rw [List.getElem?_append_left hi, List.getElem?_eq_getElem hi]
  · intro params t h
    refine ⟨(Value.tutorial (⟨0, t, ⟨"", []⟩, []⟩ : Tutorial), none),
      (⟨0, t, ⟨"", []⟩, []⟩ : Tutorial),
      createResolve_of_title params tutorials t h, by simp, ?_⟩
    simp [step, createResolve_of_title params tutorials t h]

/-- Witness of `store_append_only`: a `create` with title "a" on a
one-record store. -/
theorem store_append_only_witness :
    (argsOf "title" (Value.str "a")).Args "title" = some (Value.str "a") ∧
    ∃ res r, createResolve (argsOf "title" (Value.str "a")) [⟨1, "x", ⟨"n", [1]⟩, []⟩] =
        Except.ok (res, [⟨1, "x", ⟨"n", [1]⟩, []⟩] ++ [r]) ∧
      (([⟨1, "x", ⟨"n", [1]⟩, []⟩] : List Tutorial) ++ [r]).length =
        ([⟨1, "x", ⟨"n", [1]⟩, []⟩] : List Tutorial).length + 1 ∧
      step [⟨1, "x", ⟨"n", [1]⟩, []⟩] (Call.create (argsOf "title" (Value.str "a"))) =
        [⟨1, "x", ⟨"n", [1]⟩, []⟩] ++ [r] :=
  ⟨by simp [argsOf],
    (store_append_only [⟨1, "x", ⟨"n", [1]⟩, []⟩]).2.1 (argsOf "title" (Value.str "a")) "a"
      (by simp [argsOf])⟩

/-! ## The list resolver -/

/-- C7: `list` returns, with the nil error, the whole store in store order
and leaves the store as it was; a second `list` call right after the first
returns the same result. -/
theorem list_returns_store (params params1 : ResolveParams) (tutorials : List Tutorial) :
    listResolve params tutorials = ((Value.tutorials tutorials, none), tutorials) ∧
    (listResolve params1 (listResolve params tutorials).2).1 =
      (listResolve params tutorials).1 :=
  ⟨rfl, rfl⟩

/-- C8: when its two database operations succeed, `populate` returns exactly
the two seeded records in order, and `list` on that store returns them
verbatim, in insertion order, with the nil error. -/
theorem populate_seed (env : MongoEnv) (params : ResolveParams)
    (hdial : env.dialOk = true) (hinsert : env.insertOk = true) :
    populate env = some
        [⟨1, "Go GraphQL Tutorial", ⟨"Elliot Forbes", [1, 2]⟩, [⟨"First Comment"⟩]⟩,
         ⟨2, "Go GraphQL Tutorial - Part 2", ⟨"Elliot Forbes", [1, 2]⟩, [⟨"Second Comment"⟩]⟩] ∧
    ∀ seeded, populate env = some seeded →
      (listResolve params seeded).1 = (Value.tutorials
        [⟨1, "Go GraphQL Tutorial", ⟨"Elliot Forbes", [1, 2]⟩, [⟨"First Comment"⟩]⟩,
         ⟨2, "Go GraphQL Tutorial - Part 2", ⟨"Elliot Forbes", [1, 2]⟩, [⟨"Second Comment"⟩]⟩],
        none) := by
  have hp : populate env = some
      [⟨1, "Go GraphQL Tutorial", ⟨"Elliot Forbes", [1, 2]⟩, [⟨"First Comment"⟩]⟩,
       ⟨2, "Go GraphQL Tutorial - Part 2", ⟨"Elliot Forbes", [1, 2]⟩, [⟨"Second Comment"⟩]⟩] := by
    simp [populate, hdial, hinsert]
  refine ⟨hp, ?_⟩
  intro seeded hs
  rw [hp] at hs
  cases hs
  rfl

/-- Witness of `populate_seed`: both database operations succeed. -/
theorem populate_seed_witness :
    (⟨true, true⟩ : MongoEnv).dialOk = true ∧ (⟨true, true⟩ : MongoEnv).insertOk = true ∧
    populate ⟨true, true⟩ = some
        [⟨1, "Go GraphQL Tutorial", ⟨"Elliot Forbes", [1, 2]⟩, [⟨"First Comment"⟩]⟩,
         ⟨2, "Go GraphQL Tutorial - Part 2", ⟨"Elliot Forbes", [1, 2]⟩, [⟨"Second Comment"⟩]⟩] :=
  ⟨rfl, rfl, (populate_seed ⟨true, true⟩ noArgs rfl rfl).1⟩

/-! ## A missing or ill-typed id argument -/

/-- C9: when the argument map has no "id" entry, or one that is not an int,
the `tutorial` resolver returns the nil value and the nil error whatever the
store holds, a record with ID 0 included. -/
theorem tutorial_no_int_id (p : ResolveParams) (tutorials : List Tutorial)
    (h : ∀ n : Int, p.Args "id" ≠ some (Value.int n)) :
    tutorialResolve p tutorials = ((Value.nil, none), tutorials) := by
  unfold tutorialResolve mapIndex
  cases hv : p.Args "id" with
  | none => simp [assertInt]
  | some v =>
    cases v with
    | int n => exact absurd hv (h n)
    | _ => simp [assertInt]

/-- Witness of `tutorial_no_int_id`: no "id" entry, and a store whose only
record has the ID 0. -/
theorem tutorial_no_int_id_witness :
    (∀ n : Int, noArgs.Args "id" ≠ some (Value.int n)) ∧
    tutorialResolve noArgs [⟨0, "y", ⟨"", []⟩, []⟩] =
      ((Value.nil, none), [⟨0, "y", ⟨"", []⟩, []⟩]) :=
  ⟨by simp [noArgs], tutorial_no_int_id noArgs [⟨0, "y", ⟨"", []⟩, []⟩] (by simp [noArgs])⟩

/-! ## The post resolver -/

/-- C10: `Resolver.Post` never returns the nil resolver; whenever it returns
(the dial succeeds) it returns a resolver wrapping a non-nil post, and when
the lookup fails that post is the zero-valued one, whose `ID`, `Slug` and
`Title` accessors return the empty string. -/
theorem post_never_nil (env : PostEnv) (Slug : String) :
    Resolver.Post env Slug ≠ some none ∧
    (env.dialOk = true → ∃ doc, Resolver.Post env Slug = some (some { s := some doc }) ∧
      ∀ e, env.findOne Slug = Except.error e →
        doc = { ID := "", Slug := "", Title := "" } ∧
        postResolver.ID { s := some doc } = Except.ok "" ∧
        postResolver.Slug { s := some doc } = Except.ok "" ∧
        postResolver.Title { s := some doc } = Except.ok "") := by
  unfold Resolver.Post One
  cases hd : env.dialOk with
  | false => simp
  | true =>
    cases hf : env.findOne Slug with
    | error e => simp [postResolver.ID, postResolver.Slug, postResolver.Title]
    | ok doc => simp

/-- Witness of `post_never_nil`: the dial succeeds and every lookup fails. -/
theorem post_never_nil_witness :
    (⟨true, fun _ => Except.error "not found"⟩ : PostEnv).dialOk = true ∧
    ∃ doc, Resolver.Post ⟨true, fun _ => Except.error "not found"⟩ "no-such-post" =
        some (some { s := some doc }) ∧
      doc = { ID := "", Slug := "", Title := "" } :=
  ⟨rfl,
    let ⟨doc, hpost, hzero⟩ :=
      (post_never_nil ⟨true, fun _ => Except.error "not found"⟩ "no-such-post").2 rfl
    ⟨doc, hpost, (hzero "not found" rfl).1⟩⟩

end GraphqlMongo
